import Mathlib

/-!
Verification model of `moveit_planners/ompl/ompl_interface/src/planning_context_manager.cpp`.

The C++ file implements three cooperating pieces:
* `MultiQueryPlannerAllocator` — planner allocation with optional multi-query reuse and
  on-disk persistence of planner data;
* the state-space factory registry and its two selection entry points
  (`getStateSpaceFactory` by type and by problem);
* `PlanningContextManager::getPlanningContext` — context caching and the top-level
  request-handling pipeline.

The model below is a shallow embedding: `std::map` becomes an association list with unique
keys, `shared_ptr` reference counting on cached contexts becomes an explicit count of
holders outside the cache, C++ exceptions become `Except`, and calls into external
collaborators (OMPL planners, `ModelBasedPlanningContext` methods that live in other
translation units) become explicit outcome parameters or recorded fields.
-/

namespace OmplModel

/-- Association-list lookup, modelling `std::map::find` (keys are unique in a `std::map`,
and `mapFind` returns the first — hence only — binding). -/
def mapFind {κ α : Type} [DecidableEq κ] (l : List (κ × α)) (k : κ) : Option α :=
  (l.find? (fun p => decide (p.1 = k))).map (fun p => p.2)

/-- Insert-or-assign, modelling `std::map::operator[] = v`. -/
def mapSet {κ α : Type} [DecidableEq κ] (l : List (κ × α)) (k : κ) (v : α) : List (κ × α) :=
  match l with
  | [] => [(k, v)]
  | (k', v') :: rest => if k' = k then (k, v) :: rest else (k', v') :: mapSet rest k v

/-- Erase the binding found for `k`, modelling `std::map::erase(it)` on the iterator
returned by `find`. -/
def mapErase {κ α : Type} [DecidableEq κ] (l : List (κ × α)) (k : κ) : List (κ × α) :=
  match l with
  | [] => []
  | (k', v') :: rest => if k' = k then rest else (k', v') :: mapErase rest k

/-- Behaviour of `boost::lexical_cast<bool>` on a string: it accepts exactly "0" and "1";
any other input throws `boost::bad_lexical_cast`, modelled as `none`. -/
def lexicalCastBool (s : String) : Option Bool :=
  if s = "1" then some true else if s = "0" then some false else none

/-- String-keyed configuration map (`std::map<std::string, std::string>`). -/
abbrev ConfigMap := List (String × String)

/-- Whether the value stored under `k` (if any) parses as a boolean; `true` also when the
key is absent. Used to state that a `boost::lexical_cast<bool>` call does not throw. -/
def boolKeyOk (cfg : ConfigMap) (k : String) : Bool :=
  match mapFind cfg k with
  | none => true
  | some v => (lexicalCastBool v).isSome

/-- Whether the configuration sets the boolean key `k` to a value that parses as `true` —
the condition under which the corresponding `if` in the source fires (absent key or a
parsed `false` both yield `false`). -/
def configFlagTrue (cfg : ConfigMap) (k : String) : Bool :=
  ((mapFind cfg k).bind lexicalCastBool).getD false

/-! ## MultiQueryPlannerAllocator (lines 93-252 of the source) -/

/-- Planner identifiers whose algorithm type has a specialization of
`MultiQueryPlannerAllocator::allocatePersistentPlanner` (source lines 223-252); the
identifier-to-type association is `registerDefaultPlanners` (source lines 295-323). For
every other type the default template (source lines 218-222) returns `nullptr`. -/
def supportsPersistentReconstruction (algo : String) : Bool :=
  algo = "geometric::PRM" || algo = "geometric::PRMcustom" || algo = "geometric::PRMstar" ||
  algo = "geometric::LazyPRM" || algo = "geometric::LazyPRMstar"

/-- An `ompl::base::Planner` instance as far as this subsystem observes it.
`nameSet` is `some n` once `setName(n)` has been called (`none` = the OMPL constructor
default name, which is external to this file). `paramsSet` is `some cfg` once
`params().setParams(cfg, true)` has been called with map `cfg`. `seededFromGraph` records
whether the instance was constructed from a `PlannerData` graph (persistent
reconstruction) rather than fresh from the space information. -/
structure PlannerInstance where
  algo : String
  nameSet : Option String
  paramsSet : Option ConfigMap
  seededFromGraph : Bool
deriving DecidableEq

/-- State of a `MultiQueryPlannerAllocator`: the live-instance map `planners_` (values are
`shared_ptr`s, which the source can set to null — hence `Option`) and
`planner_data_storage_paths_`. -/
structure MultiQueryPlannerAllocator where
  planners : List (String × Option PlannerInstance)
  planner_data_storage_paths : List (String × String)
deriving DecidableEq

/-- Exceptions that can escape allocator/manager code paths. -/
inductive CppExn
  | badLexicalCast
  | nullPointerDeref
deriving DecidableEq

/-- Model of `allocatePersistentPlanner<T>(data)` (source lines 217-252): constructs a
planner of type `algo` from stored planner data when a specialization exists, otherwise
returns `nullptr` (`none`). -/
def allocatePersistentPlanner (algo : String) : Option PlannerInstance :=
  if supportsPersistentReconstruction algo then
    some { algo := algo, nameSet := none, paramsSet := none, seededFromGraph := true }
  else none

/-- Model of `MultiQueryPlannerAllocator::allocatePlannerImpl` (source lines 173-215).
Note that the parameters applied at line 207 are `spec.config_` — the caller's original,
unpruned configuration map — which this model receives as `specConfig`. -/
def allocatePlannerImpl (st : MultiQueryPlannerAllocator) (algo new_name : String)
    (specConfig : ConfigMap) (load_planner_data store_planner_data : Bool)
    (file_path : String) : PlannerInstance × MultiQueryPlannerAllocator :=
  let loaded : Option PlannerInstance :=
    if load_planner_data then allocatePersistentPlanner algo else none
  let planner : PlannerInstance :=
    match loaded with
    | some p => p
    | none => { algo := algo, nameSet := none, paramsSet := none, seededFromGraph := false }
  let planner := if new_name ≠ "" then { planner with nameSet := some new_name } else planner
  let planner := { planner with paramsSet := some specConfig }
  let st' :=
    if store_planner_data then
      { st with planner_data_storage_paths :=
          mapSet st.planner_data_storage_paths new_name file_path }
    else st
  (planner, st')

/-- Extraction of the `planner_data_path` value (source lines 154-160): the stored
string, or the empty default when the key is absent. -/
def plannerDataPath (cfg : ConfigMap) : String :=
  match mapFind cfg "planner_data_path" with
  | some v => v
  | none => ""

/-- Continuation of the multi-query branch after `load_planner_data` and
`store_planner_data` have been extracted: extract `planner_data_path`, allocate through
`allocatePlannerImpl`, and record the live instance (source lines 154-164). -/
def allocatePlannerMQStore (st : MultiQueryPlannerAllocator) (algo new_name : String)
    (specConfig cfg : ConfigMap) (load store : Bool) :
    Except CppExn (Option PlannerInstance × MultiQueryPlannerAllocator) :=
  let r := allocatePlannerImpl st algo new_name specConfig load store (plannerDataPath cfg)
  .ok (some r.1, { r.2 with planners := mapSet r.2.planners new_name (some r.1) })

/-- Continuation of the multi-query branch after `load_planner_data` has been extracted:
extract `store_planner_data` (source lines 147-153). -/
def allocatePlannerMQLoad (st : MultiQueryPlannerAllocator) (algo new_name : String)
    (specConfig cfg : ConfigMap) (load : Bool) :
    Except CppExn (Option PlannerInstance × MultiQueryPlannerAllocator) :=
  match mapFind cfg "store_planner_data" with
  | some v =>
    match lexicalCastBool v with
    | none => .error .badLexicalCast
    | some store =>
      allocatePlannerMQStore st algo new_name specConfig
        (mapErase cfg "store_planner_data") load store
  | none => allocatePlannerMQStore st algo new_name specConfig cfg load false

/-- The multi-query branch of `allocatePlanner` (source lines 120-165). `specConfig` is
the original `spec.config_`; `cfg` is the local working copy after erasing
`multi_query_planning_enabled`. Returns the planner actually returned by the C++ function
(`none` models returning a null `PlannerPtr`) together with the updated allocator state. -/
def allocatePlannerMultiQuery (st : MultiQueryPlannerAllocator) (algo new_name : String)
    (specConfig cfg : ConfigMap) :
    Except CppExn (Option PlannerInstance × MultiQueryPlannerAllocator) :=
  match mapFind st.planners new_name with
  | some liveOpt =>
    match liveOpt with
    | none =>
      -- `planner_map_it->second->getPlannerData(data)` dereferences a stored null pointer
      .error .nullPointerDeref
    | some _live =>
      let p := allocatePersistentPlanner algo
      .ok (p, { st with planners := mapSet st.planners new_name p })
  | none =>
    match mapFind cfg "load_planner_data" with
    | some v =>
      match lexicalCastBool v with
      | none => .error .badLexicalCast
      | some load =>
        allocatePlannerMQLoad st algo new_name specConfig
          (mapErase cfg "load_planner_data") load
    | none => allocatePlannerMQLoad st algo new_name specConfig cfg false

/-- Model of `MultiQueryPlannerAllocator::allocatePlanner<T>` (source lines 106-171).
`specConfig` models `spec.config_`. -/
def allocatePlanner (st : MultiQueryPlannerAllocator) (algo new_name : String)
    (specConfig : ConfigMap) :
    Except CppExn (Option PlannerInstance × MultiQueryPlannerAllocator) :=
  match mapFind specConfig "multi_query_planning_enabled" with
  | some v =>
    match lexicalCastBool v with
    | none => .error .badLexicalCast
    | some b =>
      if b then
        allocatePlannerMultiQuery st algo new_name specConfig
          (mapErase specConfig "multi_query_planning_enabled")
      else
        let r := allocatePlannerImpl st algo new_name specConfig false false ""
        .ok (some r.1, r.2)
  | none =>
    -- multi_query_planning_enabled defaults to false (source line 114)
    let r := allocatePlannerImpl st algo new_name specConfig false false ""
    .ok (some r.1, r.2)

/-! ## State-space factories and their selection (source lines 430-475, 522-571) -/

/-- Parameterization-type constant `ConstrainedPlanningStateSpace::PARAMETERIZATION_TYPE`.
The constant is declared in a header outside this repository slice; only its identity
(equality comparisons against `factory->getType()`) matters here, so any fixed string is
a faithful model. -/
def constrainedParameterizationType : String := "ConstrainedPlanning"

/-- Parameterization-type constant `JointModelStateSpace::PARAMETERIZATION_TYPE` (same
remark as for the constrained one). -/
def jointModelParameterizationType : String := "JointModel"

/-- Inbound `moveit_msgs::msg::MotionPlanRequest`, restricted to the fields this file
consumes: group name, planner id, and the sizes of
`path_constraints.position_constraints` / `path_constraints.orientation_constraints`. -/
structure MotionPlanRequest where
  group_name : String
  planner_id : String
  position_constraints : Nat
  orientation_constraints : Nat
deriving DecidableEq

/-- A `ModelBasedStateSpaceFactory`: a parameterization type name plus the
`canRepresentProblem(group, request, robot_model)` priority score. The robot model is a
fixed external collaborator and is absorbed into the function. -/
structure StateSpaceFactory where
  type : String
  canRepresentProblem : String → MotionPlanRequest → Int

/-- Modelled from the spec: the registry `state_space_factories_` is declared in a header
outside this repository slice; per §4.3 it preserves registration order and `getByType`
falls back to the first-registered factory on an empty type, so it is modelled as a
registration-ordered list. This is `getStateSpaceFactory(factory_type)` (source lines
430-444): exact type match, first factory when the requested type is empty, `none` (the
`EMPTY` null pointer) when nothing matches. -/
def getStateSpaceFactoryByType (fs : List StateSpaceFactory) (t : String) :
    Option StateSpaceFactory :=
  if t = "" then fs.head? else fs.find? (fun f => decide (f.type = t))

/-- The selection loop of `getStateSpaceFactory(group, req)` (source lines 450-461):
fold over the registered factories keeping the best seen so far, updating only on a
strictly greater priority, starting from `prev_priority = 0` and `best = end()`. -/
def getStateSpaceFactoryByProblemAux (group : String) (req : MotionPlanRequest)
    (best : Option StateSpaceFactory) (prev : Int) :
    List StateSpaceFactory → Option StateSpaceFactory
  | [] => best
  | f :: rest =>
    if prev < f.canRepresentProblem group req then
      getStateSpaceFactoryByProblemAux group req (some f)
        (f.canRepresentProblem group req) rest
    else
      getStateSpaceFactoryByProblemAux group req best prev rest

/-- Model of `getStateSpaceFactory(group, req)` (source lines 446-475): priority-based
selection; `none` models returning the `EMPTY` null factory after the logged error. -/
def getStateSpaceFactoryByProblem (fs : List StateSpaceFactory) (group : String)
    (req : MotionPlanRequest) : Option StateSpaceFactory :=
  getStateSpaceFactoryByProblemAux group req none 0 fs

/-- Running maximum of the factories' scores starting from `prev`; the reference value
the selection loop's champion is measured against. -/
def maxScoreFrom (group : String) (req : MotionPlanRequest) (prev : Int) :
    List StateSpaceFactory → Int
  | [] => prev
  | f :: rest =>
    maxScoreFrom group req (max prev (f.canRepresentProblem group req)) rest

/-! ## Context cache and per-configuration acquisition (source lines 342-428) -/

/-- A `ModelBasedPlanningContext` as observed through this file: an identity (`id`, the
allocation order of `std::make_shared` calls — distinct ids are distinct objects), and
the fields this file writes. The numeric fields the source overwrites unconditionally on
every acquisition start at arbitrary constructor defaults (external); they are modelled
as 0 since no claim can observe them before the overwrite. `maxSolutionSegmentLength` is
written only conditionally, so its pre-write constructor default is kept abstract as
`none`. -/
structure PlanningContext where
  id : Nat
  name : String
  maxPlanningThreads : Nat
  maxGoalSamples : Nat
  maxStateSamplingAttempts : Nat
  maxGoalSamplingAttempts : Nat
  maxSolutionSegmentLength : Option ℚ
  minimumWaypointCount : Nat
  specConfig : ConfigMap
deriving DecidableEq

/-- A cache slot: the stored context plus the number of `shared_ptr` references currently
held outside the cache. `cached_context.unique()` (source line 356) holds exactly when
`outsideHolders = 0`. -/
structure CachedContext where
  ctx : PlanningContext
  outsideHolders : Nat
deriving DecidableEq

/-- The cache `PlanningContextManager::CachedContexts::contexts_` (source lines 87-91):
map from `(configuration name, factory type)` to the ordered sequence of contexts created
for that key. -/
structure CachedContexts where
  contexts : List ((String × String) × List CachedContext)
deriving DecidableEq

/-- Settings record `planning_interface::PlannerConfigurationSettings`: name, group,
configuration map. -/
structure PlannerConfigurationSettings where
  name : String
  group : String
  config : ConfigMap
deriving DecidableEq

/-- The `PlanningContextManager` state consulted by `getPlanningContext`: the planner
configurations and factory registry, and the manager-wide numeric limits initialized at
source lines 258-263 (all of them adjustable through the manager's interface). Doubles
are modelled as exact rationals. -/
structure PlanningContextManager where
  planner_configs : List (String × PlannerConfigurationSettings)
  state_space_factories : List StateSpaceFactory
  max_goal_samples : Nat
  max_state_sampling_attempts : Nat
  max_goal_sampling_attempts : Nat
  max_planning_threads : Nat
  max_solution_segment_length : ℚ
  minimum_waypoint_count : Nat

/-- Machine epsilon `std::numeric_limits<double>::epsilon()`, the threshold at source
line 419; the rational 2 to the power -52, built by the raw constructor so that
comparisons against it evaluate by kernel reduction. -/
def doubleEpsilon : ℚ := ⟨1, 2 ^ 52, by norm_num, Nat.coprime_one_left _⟩

/-- The unconditional and conditional writes at source lines 414-425: manager limits and
the configuration's parameters applied to the context about to be returned. -/
def applyManagerSettings (m : PlanningContextManager)
    (config : PlannerConfigurationSettings) (c : PlanningContext) : PlanningContext :=
  let c := { c with
    maxPlanningThreads := m.max_planning_threads
    maxGoalSamples := m.max_goal_samples
    maxStateSamplingAttempts := m.max_state_sampling_attempts
    maxGoalSamplingAttempts := m.max_goal_sampling_attempts }
  let c :=
    if doubleEpsilon < m.max_solution_segment_length then
      { c with maxSolutionSegmentLength := some m.max_solution_segment_length }
    else c
  { c with
    minimumWaypointCount := m.minimum_waypoint_count
    specConfig := config.config }

/-- The scan at source lines 355-361: the first cached context with no holder outside the
cache, if any. -/
def firstUnique : List CachedContext → Option PlanningContext
  | [] => none
  | c :: rest => if c.outsideHolders = 0 then some c.ctx else firstUnique rest

/-- Replace (in place) the context found by the `firstUnique` scan — the model of the
fact that the limit-setting calls mutate the shared object also referenced by the cache. -/
def setFirstUnique (c' : PlanningContext) : List CachedContext → List CachedContext
  | [] => []
  | c :: rest =>
    if c.outsideHolders = 0 then { c with ctx := c' } :: rest
    else c :: setFirstUnique c' rest

/-- The entry sequence stored under `key`, empty when the key is absent. -/
def cacheEntry (cache : CachedContexts) (key : String × String) : List CachedContext :=
  (mapFind cache.contexts key).getD []

/-- All context ids stored anywhere in the cache. -/
def allCachedIds (cache : CachedContexts) : List Nat :=
  (cache.contexts.map (fun p => p.2.map (fun c => c.ctx.id))).flatten

/-- Every context stored in the cache has an id below `nextId` — the invariant relating
the cache to the allocation counter for fresh `std::make_shared` calls. -/
def cacheIdsBelow (cache : CachedContexts) (nextId : Nat) : Bool :=
  cache.contexts.all (fun p => p.2.all (fun c => decide (c.ctx.id < nextId)))

/-- Every slot of `l` is currently held outside the cache (no slot passes `unique()`). -/
def allHeld (l : List CachedContext) : Bool :=
  l.all (fun c => decide (c.outsideHolders ≠ 0))

/-- A freshly constructed `ModelBasedPlanningContext(config.name, context_spec)` (source
line 401); `context_spec.config_ = config.config` was set at source line 370. -/
def newPlanningContext (nextId : Nat) (config : PlannerConfigurationSettings) :
    PlanningContext :=
  { id := nextId, name := config.name
    maxPlanningThreads := 0, maxGoalSamples := 0, maxStateSamplingAttempts := 0
    maxGoalSamplingAttempts := 0, maxSolutionSegmentLength := none
    minimumWaypointCount := 0, specConfig := config.config }

/-- Model of `PlanningContextManager::getPlanningContext(config, factory, req)` (source
lines 342-428): cache scan, fresh construction on miss, insertion for non-constrained
factory types only, and the final (re)application of manager limits and configuration.
`nextId` is the fresh-object counter; the request only feeds the constrained-space
wrapper, which no claim observes, so it does not appear. Returns
(returned context, cache after the call, next fresh id). -/
def getPlanningContextForConfig (m : PlanningContextManager) (cache : CachedContexts)
    (nextId : Nat) (config : PlannerConfigurationSettings) (factoryType : String) :
    PlanningContext × CachedContexts × Nat :=
  let key := (config.name, factoryType)
  let entry := cacheEntry cache key
  match firstUnique entry with
  | some c =>
    let c' := applyManagerSettings m config c
    (c', ⟨mapSet cache.contexts key (setFirstUnique c' entry)⟩, nextId)
  | none =>
    let c' := applyManagerSettings m config (newPlanningContext nextId config)
    if factoryType = constrainedParameterizationType then
      -- source lines 403-411: a constrained-type context is never cached
      (c', cache, nextId + 1)
    else
      (c', ⟨mapSet cache.contexts key (entry ++ [⟨c', 0⟩])⟩, nextId + 1)

/-! ## Top-level request handling (source lines 477-611) -/

/-- Error codes `moveit_msgs::msg::MoveItErrorCodes` this file reads or writes; `other`
stands for any code written by the constraint-validation callees. -/
inductive MoveItErrorCode
  | success
  | failure
  | invalidGroupName
  | other (n : Int)
deriving DecidableEq

/-- Outcomes of the calls into `ModelBasedPlanningContext` (external translation unit):
`setPathConstraints` / `setGoalConstraints` return `false` after writing an error code
(modelled as `some code`; `none` = success, error code left untouched). The body of
`configure` (source line 599) is external, but it materializes the planner through the
planner-selection capability, which wraps the in-file allocator (source lines 289-292):
`allocatorRequest` is the planner type id and instance name the external `configure`
body passes to `allocatePlanner` when it reaches that call (`none` models a configure
that fails or returns without invoking the allocator), and
`configureThrowsOmplException` says whether the external remainder of `configure`
throws an `ompl::Exception` — the only exception type caught at source line 603.
Exceptions raised inside the in-file allocator (its `boost::lexical_cast` calls at
source lines 117/144/151, or dereferencing a stored null planner at line 128) are not
`ompl::Exception`s; they are produced by `allocatePlanner` itself in this model and
escape that catch. -/
structure ExternalOutcomes where
  pathConstraintsError : Option MoveItErrorCode
  goalConstraintsError : Option MoveItErrorCode
  allocatorRequest : Option (String × String)
  configureThrowsOmplException : Bool
deriving DecidableEq

/-- Result of the public entry point: the returned context (or null), the error-code
output parameter, and the cache/counter state after the call. -/
structure GetPlanningContextResult where
  context : Option PlanningContext
  errorCode : MoveItErrorCode
  cache : CachedContexts
  nextId : Nat
deriving DecidableEq

/-- Prefix test on character lists. -/
def listStartsWith : List Char → List Char → Bool
  | [], _ => true
  | _ :: _, [] => false
  | a :: as, b :: bs => a = b && listStartsWith as bs

/-- Does `needle` occur inside `haystack`? Models `std::string::find(s) != npos`. -/
def listContainsSub (haystack needle : List Char) : Bool :=
  match haystack with
  | [] => needle.isEmpty
  | _ :: t => listStartsWith needle haystack || listContainsSub t needle

/-- Substring test `haystack.find(needle) != std::string::npos`. -/
def strContainsSub (haystack needle : String) : Bool :=
  listContainsSub haystack.data needle.data

/-- Planner-configuration resolution (source lines 497-520): with a planner id, look up
`group[planner_id]` unless the id already contains the group name (then look up the id
directly); on failure fall back to the plain group key. -/
def resolvePlannerConfig (configs : List (String × PlannerConfigurationSettings))
    (req : MotionPlanRequest) : Option PlannerConfigurationSettings :=
  let fromId : Option PlannerConfigurationSettings :=
    if req.planner_id ≠ "" then
      mapFind configs
        (if strContainsSub req.planner_id req.group_name then req.planner_id
         else req.group_name ++ "[" ++ req.planner_id ++ "]")
    else none
  match fromId with
  | some pc => some pc
  | none => mapFind configs req.group_name

/-- Tiers 2 and 3 of the state-space selection (source lines 563-571): the
`enforce_joint_model_state_space` flag, then priority-based selection. A malformed
boolean value makes `boost::lexical_cast` throw. -/
def selectTier23 (fs : List StateSpaceFactory) (cfg : ConfigMap) (group : String)
    (req : MotionPlanRequest) : Except CppExn (Option StateSpaceFactory) :=
  match mapFind cfg "enforce_joint_model_state_space" with
  | some v =>
    match lexicalCastBool v with
    | none => .error .badLexicalCast
    | some b =>
      if b then .ok (getStateSpaceFactoryByType fs jointModelParameterizationType)
      else .ok (getStateSpaceFactoryByProblem fs group req)
  | none => .ok (getStateSpaceFactoryByProblem fs group req)

/-- The three-tier state-space selection (source lines 551-571). Tier 1: the
`enforce_constrained_state_space` flag together with exactly one position constraint or
exactly one orientation constraint in the request. -/
def selectStateSpaceFactory (fs : List StateSpaceFactory) (cfg : ConfigMap)
    (group : String) (req : MotionPlanRequest) :
    Except CppExn (Option StateSpaceFactory) :=
  match mapFind cfg "enforce_constrained_state_space" with
  | some v =>
    match lexicalCastBool v with
    | none => .error .badLexicalCast
    | some b =>
      if b && (req.position_constraints == 1 || req.orientation_constraints == 1) then
        .ok (getStateSpaceFactoryByType fs constrainedParameterizationType)
      else selectTier23 fs cfg group req
  | none => selectTier23 fs cfg group req

/-- Absence of the in-file fault conditions for one request: the resolved
configuration's enforcement-flag values parse and tier selection yields a non-null
factory (a malformed value throws at source lines 557/564, and an empty factory is
dereferenced at source line 352), and — when the Configure step invokes the in-file
allocator — the allocator call on the resolved configuration succeeds (its reserved
boolean values parse and no stored null planner is dereferenced, source lines 117-131).
`true` also when no configuration resolves (the entry point then fails cleanly
earlier). Each of these conditions is matched by a demonstrated escape in the C9
counterexample. -/
def requestFaultFree (m : PlanningContextManager) (alloc : MultiQueryPlannerAllocator)
    (req : MotionPlanRequest) (ext : ExternalOutcomes) : Bool :=
  match resolvePlannerConfig m.planner_configs req with
  | none => true
  | some pc =>
    match selectStateSpaceFactory m.state_space_factories pc.config pc.group req with
    | .ok (some _) =>
      (match ext.allocatorRequest with
       | none => true
       | some ar =>
         match allocatePlanner alloc ar.1 ar.2 pc.config with
         | .ok _ => true
         | .error _ => false)
    | _ => false

/-- Model of `PlanningContextManager::getPlanningContext(planning_scene, req, error_code,
node, use_constraints_approximation)` (source lines 477-611), the public request-handling
entry point. `sceneProvided` models the null check on the planning scene; `alloc` is the
manager's `planner_allocator_`, invoked through the planner-selection capability when
the Configure step requests a planner; `ext` carries the outcomes of the external
`ModelBasedPlanningContext` calls. An `.error` value is a C++ exception propagating
past the entry point; the `.ok` value carries the error-code output parameter and the
returned (possibly null) context. The context specification configured at source lines
370/425 carries the resolved configuration's map, so that map is what the allocator
receives during Configure. The allocator state after Configure is not observed by any
claim and is not returned. -/
def getPlanningContextTop (m : PlanningContextManager)
    (alloc : MultiQueryPlannerAllocator) (cache : CachedContexts)
    (nextId : Nat) (sceneProvided : Bool) (req : MotionPlanRequest)
    (ext : ExternalOutcomes) : Except CppExn GetPlanningContextResult :=
  if req.group_name = "" then
    .ok ⟨none, .invalidGroupName, cache, nextId⟩
  else if !sceneProvided then
    -- error_code was set to FAILURE at source line 489
    .ok ⟨none, .failure, cache, nextId⟩
  else
    match resolvePlannerConfig m.planner_configs req with
    | none => .ok ⟨none, .failure, cache, nextId⟩
    | some pc =>
      match selectStateSpaceFactory m.state_space_factories pc.config pc.group req with
      | .error e => .error e
      | .ok none =>
        -- a null factory reaches `factory->getType()` at source line 352
        .error .nullPointerDeref
      | .ok (some factory) =>
        let r := getPlanningContextForConfig m cache nextId pc factory.type
        match ext.pathConstraintsError with
        | some e => .ok ⟨none, e, r.2.1, r.2.2⟩
        | none =>
          match ext.goalConstraintsError with
          | some e => .ok ⟨none, e, r.2.1, r.2.2⟩
          | none =>
            -- the Configure step: the external configure body invokes the in-file
            -- allocator through the planner-selection capability
            match ext.allocatorRequest with
            | some ar =>
              match allocatePlanner alloc ar.1 ar.2 pc.config with
              | .error e =>
                -- a boost::bad_lexical_cast (or stored-null dereference) raised by
                -- the allocator during configure is not an ompl::Exception: the
                -- catch at source line 603 does not apply and it escapes
                .error e
              | .ok _ =>
                if ext.configureThrowsOmplException then
                  -- source lines 603-607: catch, log, reset the context; error code
                  -- still carries the FAILURE written at source line 489
                  .ok ⟨none, .failure, r.2.1, r.2.2⟩
                else
                  .ok ⟨some r.1, .success, r.2.1, r.2.2⟩
            | none =>
              if ext.configureThrowsOmplException then
                .ok ⟨none, .failure, r.2.1, r.2.2⟩
              else
                .ok ⟨some r.1, .success, r.2.1, r.2.2⟩

/-! ## Concrete instances used by counterexamples and witnesses -/

/-- An allocator with no live planners and no recorded storage paths. -/
def emptyAllocator : MultiQueryPlannerAllocator := ⟨[], []⟩

/-- A configuration that enables multi-query planning and carries the other reserved keys
plus an ordinary algorithm parameter. -/
def mixedReservedConfig : ConfigMap :=
  [("multi_query_planning_enabled", "1"), ("load_planner_data", "0"),
   ("store_planner_data", "0"), ("planner_data_path", "/tmp/prm_data"), ("range", "0.05")]

/-- A live RRT instance as stored by a first multi-query-enabled allocation under the
name "pl" (RRT has no `allocatePersistentPlanner` specialization). -/
def rrtLiveInstance : PlannerInstance :=
  ⟨"geometric::RRT", some "pl", some [("multi_query_planning_enabled", "1")], false⟩

/-- A live PRM instance as stored by a first multi-query-enabled allocation under the
name "p". -/
def prmLiveInstance : PlannerInstance := ⟨"geometric::PRM", some "p", some [], false⟩

/-- The planner instance produced by persistent reconstruction of a PRM graph: default
name, no parameters applied. -/
def reconstructedPRM : PlannerInstance := ⟨"geometric::PRM", none, none, true⟩

/-- A joint-model factory giving every problem priority 100. -/
def jointFactory : StateSpaceFactory := ⟨"JointModel", fun _ _ => 100⟩

/-- A pose-model factory giving every problem priority 50. -/
def poseFactory : StateSpaceFactory := ⟨"PoseModel", fun _ _ => 50⟩

/-- A constrained-planning factory giving every problem priority 0. -/
def constrainedFactory : StateSpaceFactory := ⟨"ConstrainedPlanning", fun _ _ => 0⟩

/-- The default factory registration of `registerDefaultStateSpaces` (source lines
325-330), with scores standing in for the external `canRepresentProblem`
implementations. -/
def defaultFactories : List StateSpaceFactory :=
  [jointFactory, poseFactory, constrainedFactory]

/-- Three factories scoring 5, 10 and 3 — the selection example from the spec. -/
def factoryScoring5 : StateSpaceFactory := ⟨"A", fun _ _ => 5⟩

/-- Second of the three factories (the winner). -/
def factoryScoring10 : StateSpaceFactory := ⟨"B", fun _ _ => 10⟩

/-- Third of the three factories. -/
def factoryScoring3 : StateSpaceFactory := ⟨"C", fun _ _ => 3⟩

/-- A request for group "arm" with one position constraint and no planner id. -/
def reqArmOnePos : MotionPlanRequest := ⟨"arm", "", 1, 0⟩

/-- A context sitting in the cache with a previously applied solution-segment-length
limit of 5. -/
def ctxSeg5 : PlanningContext := ⟨0, "cfg", 4, 10, 4, 1000, some 5, 2, []⟩

/-- A cache holding `ctxSeg5` under ("cfg", "JointModel") with no outside holder. -/
def cacheSeg5 : CachedContexts := ⟨[(("cfg", "JointModel"), [⟨ctxSeg5, 0⟩])]⟩

/-- A manager whose solution-segment-length limit is 0 (the constructor default at
source line 262). -/
def mgrSegZero : PlanningContextManager := ⟨[], [], 10, 4, 1000, 4, 0, 2⟩

/-- A manager whose solution-segment-length limit is 1. -/
def mgrSegOne : PlanningContextManager := ⟨[], [], 10, 4, 1000, 4, 1, 2⟩

/-- A planner configuration named "cfg" for group "arm" with no flags. -/
def cfgPlain : PlannerConfigurationSettings := ⟨"cfg", "arm", []⟩

/-- A planner configuration whose `enforce_constrained_state_space` value is not a
parsable boolean. -/
def cfgBadFlag : PlannerConfigurationSettings :=
  ⟨"arm", "arm", [("enforce_constrained_state_space", "yes")]⟩

/-- A manager resolving group "arm" to the malformed-flag configuration. -/
def mgrBadFlag : PlanningContextManager :=
  ⟨[("arm", cfgBadFlag)], defaultFactories, 10, 4, 1000, 4, 0, 2⟩

/-- A manager resolving group "arm" to the plain configuration, with the default
factories. -/
def mgrPlain : PlanningContextManager :=
  ⟨[("arm", cfgPlain)], defaultFactories, 10, 4, 1000, 4, 0, 2⟩

/-- External outcomes: all context calls succeed, configure without an allocator call. -/
def extAllOk : ExternalOutcomes := ⟨none, none, none, false⟩

/-- External outcomes: configure allocates an RRT planner and then the external part of
`configure` throws an `ompl::Exception`. -/
def extConfigureThrows : ExternalOutcomes :=
  ⟨none, none, some ("geometric::RRT", "rrt_instance"), true⟩

/-- External outcomes: `setPathConstraints` fails writing error code 99. -/
def extPathFails : ExternalOutcomes := ⟨some (.other 99), none, none, false⟩

/-- External outcomes: configure invokes the allocator for an RRT planner and the
external remainder would succeed. -/
def extInvokesAllocator : ExternalOutcomes :=
  ⟨none, none, some ("geometric::RRT", "rrt_instance"), false⟩

/-- A planner configuration whose `multi_query_planning_enabled` value is not a
parsable boolean (only consulted by the allocator during Configure). -/
def cfgBadMqValue : PlannerConfigurationSettings :=
  ⟨"cfg", "arm", [("multi_query_planning_enabled", "yes")]⟩

/-- A manager resolving group "arm" to the malformed multi-query configuration. -/
def mgrBadMqValue : PlanningContextManager :=
  ⟨[("arm", cfgBadMqValue)], defaultFactories, 10, 4, 1000, 4, 0, 2⟩

/-- A factory whose priority score is always 0 ("cannot represent"). -/
def zeroScoreFactory : StateSpaceFactory := ⟨"JointModel", fun _ _ => 0⟩

/-- A manager whose only registered factory scores 0 for every problem, so
priority-based selection returns the EMPTY null factory. -/
def mgrNoRepresentable : PlanningContextManager :=
  ⟨[("arm", cfgPlain)], [zeroScoreFactory], 10, 4, 1000, 4, 0, 2⟩

/-- A cached context (id 0) for key ("cfg", "JointModel") currently held by another
caller. -/
def cacheHeldEntry : CachedContexts :=
  ⟨[(("cfg", "JointModel"), [⟨⟨0, "cfg", 4, 10, 4, 1000, none, 2, []⟩, 1⟩])]⟩

/-- A configuration that enables multi-query planning and requests loading stored
planner data. -/
def loadRequestingConfig : ConfigMap :=
  [("multi_query_planning_enabled", "1"), ("load_planner_data", "1"),
   ("planner_data_path", "/tmp/d")]

/-- A live PRMstar instance stored under the name "q". -/
def prmStarLiveInstance : PlannerInstance := ⟨"geometric::PRMstar", some "q", none, false⟩

/-- The three factories scoring 5, 10, 3, in registration order. -/
def scoringExample : List StateSpaceFactory :=
  [factoryScoring5, factoryScoring10, factoryScoring3]

/-- A configuration enabling the constrained state space. -/
def cfgEnforceConstrained : ConfigMap := [("enforce_constrained_state_space", "1")]

/-! ## Basic lemmas about the association-list map operations -/

theorem mapFind_nil {κ α : Type} [DecidableEq κ] (k : κ) :
    mapFind ([] : List (κ × α)) k = none := rfl

theorem mapFind_cons {κ α : Type} [DecidableEq κ] (k' : κ) (v' : α) (rest : List (κ × α))
    (k : κ) :
    mapFind ((k', v') :: rest) k = if k' = k then some v' else mapFind rest k := by
  by_cases h : k' = k <;> simp [mapFind, List.find?, h]

theorem mapFind_mapSet_self {κ α : Type} [DecidableEq κ] (l : List (κ × α)) (k : κ)
    (v : α) : mapFind (mapSet l k v) k = some v := by
  induction l with
  | nil => simp [mapSet, mapFind_cons]
  | cons p rest ih =>
    obtain ⟨k', v'⟩ := p
    by_cases h : k' = k
    · simp [mapSet, h, mapFind_cons]
    · simp [mapSet, h, mapFind_cons, ih]

theorem mapErase_of_find_none {κ α : Type} [DecidableEq κ] (l : List (κ × α)) (k : κ)
    (h : mapFind l k = none) : mapErase l k = l := by
  induction l with
  | nil => rfl
  | cons p rest ih =>
    rw [mapFind_cons] at h
    by_cases hp : p.1 = k
    · simp [hp] at h
    · simp [hp] at h
      simp [mapErase, hp, ih h]

/-! ## Allocator lemmas -/

/-- The planner built by `allocatePlannerImpl`: requested name (when nonempty), the full
`spec.config_` as parameters, seeded exactly when loading was requested and the type has
a persistent-reconstruction specialization. -/
theorem allocatePlannerImpl_planner (st : MultiQueryPlannerAllocator)
    (algo new_name : String) (specConfig : ConfigMap) (load store : Bool)
    (path : String) :
    (allocatePlannerImpl st algo new_name specConfig load store path).1 =
      ⟨algo, if new_name = "" then none else some new_name, some specConfig,
       load && supportsPersistentReconstruction algo⟩ := by
  unfold allocatePlannerImpl allocatePersistentPlanner
  cases load <;> cases h : supportsPersistentReconstruction algo <;>
    by_cases hn : new_name = "" <;> simp [h, hn]

/-- Reduction of `allocatePlanner` when `multi_query_planning_enabled` parses to true. -/
theorem allocatePlanner_mq_true (st : MultiQueryPlannerAllocator)
    (algo new_name : String) (cfg : ConfigMap)
    (hmq : (mapFind cfg "multi_query_planning_enabled").bind lexicalCastBool =
      some true) :
    allocatePlanner st algo new_name cfg =
      allocatePlannerMultiQuery st algo new_name cfg
        (mapErase cfg "multi_query_planning_enabled") := by
  cases h1 : mapFind cfg "multi_query_planning_enabled" with
  | none => rw [h1] at hmq; simp at hmq
  | some v =>
    rw [h1] at hmq
    simp only [Option.some_bind] at hmq
    simp [allocatePlanner, h1, hmq]

/-- Reduction of the multi-query branch when a live instance exists under the requested
name: persistent reconstruction is attempted unconditionally and its (possibly null)
result is both stored and returned. -/
theorem allocatePlannerMultiQuery_live (st : MultiQueryPlannerAllocator)
    (algo new_name : String) (cfg cfg1 : ConfigMap) (live : PlannerInstance)
    (hlive : mapFind st.planners new_name = some (some live)) :
    allocatePlannerMultiQuery st algo new_name cfg cfg1 =
      .ok (allocatePersistentPlanner algo,
           ⟨mapSet st.planners new_name (allocatePersistentPlanner algo),
            st.planner_data_storage_paths⟩) := by
  simp [allocatePlannerMultiQuery, hlive]

/-- Reduction of the multi-query branch when no live instance exists and the reserved
boolean keys parse: the allocation goes through `allocatePlannerImpl` and the resulting
planner is stored and returned. -/
theorem allocatePlannerMultiQuery_nolive (st : MultiQueryPlannerAllocator)
    (algo new_name : String) (cfg cfg1 : ConfigMap)
    (hlive : mapFind st.planners new_name = none)
    (hload : boolKeyOk cfg1 "load_planner_data" = true)
    (hstore : boolKeyOk (mapErase cfg1 "load_planner_data") "store_planner_data" = true) :
    ∃ load store path,
      allocatePlannerMultiQuery st algo new_name cfg cfg1 =
        .ok (some (allocatePlannerImpl st algo new_name cfg load store path).1,
             ⟨mapSet (allocatePlannerImpl st algo new_name cfg load store path).2.planners
                new_name
                (some (allocatePlannerImpl st algo new_name cfg load store path).1),
              (allocatePlannerImpl st algo new_name
                cfg load store path).2.planner_data_storage_paths⟩) := by
  cases h2 : mapFind cfg1 "load_planner_data" with
  | none =>
    rw [mapErase_of_find_none cfg1 _ h2] at hstore
    cases h3 : mapFind cfg1 "store_planner_data" with
    | none =>
      simp only [allocatePlannerMultiQuery, allocatePlannerMQLoad,
        allocatePlannerMQStore, hlive, h2, h3]
      exact ⟨_, _, _, rfl⟩
    | some sv =>
      simp only [boolKeyOk, h3] at hstore
      cases h5 : lexicalCastBool sv with
      | none => rw [h5] at hstore; simp at hstore
      | some sb =>
        simp only [allocatePlannerMultiQuery, allocatePlannerMQLoad,
          allocatePlannerMQStore, hlive, h2, h3, h5]
        exact ⟨_, _, _, rfl⟩
  | some lv =>
    simp only [boolKeyOk, h2] at hload
    cases h4 : lexicalCastBool lv with
    | none => rw [h4] at hload; simp at hload
    | some lb =>
      cases h3 : mapFind (mapErase cfg1 "load_planner_data") "store_planner_data" with
      | none =>
        simp only [allocatePlannerMultiQuery, allocatePlannerMQLoad,
          allocatePlannerMQStore, hlive, h2, h4, h3]
        exact ⟨_, _, _, rfl⟩
      | some sv =>
        simp only [boolKeyOk, h3] at hstore
        cases h5 : lexicalCastBool sv with
        | none => rw [h5] at hstore; simp at hstore
        | some sb =>
          simp only [allocatePlannerMultiQuery, allocatePlannerMQLoad,
            allocatePlannerMQStore, hlive, h2, h4, h3, h5]
          exact ⟨_, _, _, rfl⟩

/-! ## Claim theorems -/

/-- C4: the claim says the four reserved keys are removed from the configuration before
it is applied to the planner's parameter system and never reach it. In the code, the
erasures happen on the local copy `cfg`, but `allocatePlannerImpl` applies
`spec.config_` — the original map — at line 207, so every reserved key reaches
`params().setParams`. Evaluated here at a multi-query-enabled configuration carrying all
four reserved keys: the allocated planner's parameter map is the full original
configuration, reserved keys included. -/
theorem reservedKeys_reach_planner_params :
    allocatePlanner emptyAllocator "geometric::RRT" "myRRT" mixedReservedConfig =
      .ok (some ⟨"geometric::RRT", some "myRRT", some mixedReservedConfig, false⟩,
           ⟨[("myRRT", some ⟨"geometric::RRT", some "myRRT", some mixedReservedConfig,
              false⟩)], []⟩) ∧
    mapFind mixedReservedConfig "multi_query_planning_enabled" = some "1" ∧
    mapFind mixedReservedConfig "load_planner_data" = some "0" ∧
    mapFind mixedReservedConfig "store_planner_data" = some "0" ∧
    mapFind mixedReservedConfig "planner_data_path" = some "/tmp/prm_data" :=
  ⟨rfl, rfl, rfl, rfl, rfl⟩

/-- C5 counterexample: a live RRT instance exists under the requested name and RRT has
no persistent-reconstruction specialization; the allocator then stores and returns a
null planner instead of falling back to a fresh instance, refuting "never returns a null
planner ... when a live instance already exists under the requested name". -/
theorem unsupportedReuse_returns_null_planner :
    allocatePlanner ⟨[("pl", some rrtLiveInstance)], []⟩ "geometric::RRT" "pl"
        [("multi_query_planning_enabled", "1")] =
      .ok (none, ⟨[("pl", none)], []⟩) ∧
    supportsPersistentReconstruction "geometric::RRT" = false :=
  ⟨rfl, rfl⟩

/-- C5 amended: for an algorithm type without persistent-reconstruction support, (a) a
multi-query request with `load_planner_data` set and no live instance degrades to a
fresh, unseeded, non-null planner; but (b) when a live instance already exists under the
requested name, the allocator stores and returns a null planner. -/
theorem allocator_degradation_amended (st : MultiQueryPlannerAllocator)
    (algo new_name : String) (cfg : ConfigMap)
    (hmq : (mapFind cfg "multi_query_planning_enabled").bind lexicalCastBool = some true)
    (hsup : supportsPersistentReconstruction algo = false) :
    (mapFind st.planners new_name = none →
     (mapFind (mapErase cfg "multi_query_planning_enabled")
         "load_planner_data").bind lexicalCastBool = some true →
     boolKeyOk (mapErase (mapErase cfg "multi_query_planning_enabled")
         "load_planner_data") "store_planner_data" = true →
     ∃ p st', allocatePlanner st algo new_name cfg = .ok (some p, st') ∧
       p.seededFromGraph = false ∧ p.algo = algo ∧ p.paramsSet = some cfg) ∧
    (∀ live, mapFind st.planners new_name = some (some live) →
     allocatePlanner st algo new_name cfg =
       .ok (none, ⟨mapSet st.planners new_name none,
                   st.planner_data_storage_paths⟩)) := by
  rw [allocatePlanner_mq_true st algo new_name cfg hmq]
  constructor
  · intro hlive hload hstore
    have hload' : boolKeyOk (mapErase cfg "multi_query_planning_enabled")
        "load_planner_data" = true := by
      cases h : mapFind (mapErase cfg "multi_query_planning_enabled")
          "load_planner_data" with
      | none => rw [h] at hload; simp at hload
      | some lv =>
        rw [h] at hload
        simp only [Option.some_bind] at hload
        simp [boolKeyOk, h, hload]
    obtain ⟨load, store, path, heq⟩ :=
      allocatePlannerMultiQuery_nolive st algo new_name cfg
        (mapErase cfg "multi_query_planning_enabled") hlive hload' hstore
    rw [heq, allocatePlannerImpl_planner]
    exact ⟨_, _, rfl, by simp [hsup], rfl, rfl⟩
  · intro live hlive
    rw [allocatePlannerMultiQuery_live st algo new_name cfg _ live hlive]
    simp [allocatePersistentPlanner, hsup]

/-- C5 witness: instantiating the amended theorem's degradation branch at a concrete
load-requesting configuration for RRT. -/
theorem allocator_degradation_amended_witness :
    ∃ p st', allocatePlanner emptyAllocator "geometric::RRT" "w5" loadRequestingConfig =
      .ok (some p, st') ∧ p.seededFromGraph = false ∧ p.algo = "geometric::RRT" ∧
      p.paramsSet = some loadRequestingConfig :=
  (allocator_degradation_amended emptyAllocator "geometric::RRT" "w5"
    loadRequestingConfig rfl rfl).1 rfl rfl rfl

/-- C6 counterexample: multi-query reuse with a live PRM instance under the requested
name returns the reconstructed planner without calling `setName` or
`params().setParams` — its name is not the requested "p" and no parameters were applied,
refuting "name has been set to the requested instance name and ... parameters have been
set" for this case. -/
theorem reusePath_skips_name_and_params :
    allocatePlanner ⟨[("p", some prmLiveInstance)], []⟩ "geometric::PRM" "p"
        [("multi_query_planning_enabled", "1"), ("range", "2")] =
      .ok (some reconstructedPRM, ⟨[("p", some reconstructedPRM)], []⟩) ∧
    reconstructedPRM.nameSet ≠ some "p" ∧
    reconstructedPRM.paramsSet = none :=
  ⟨rfl, by decide, rfl⟩

/-- C6 amended: in both fresh-construction paths (multi-query disabled, or enabled with
no live instance) the returned planner carries the requested name (when nonempty) and
the full original configuration as parameters; in the live-instance reuse path the
planner is reconstructed from the previous graph with neither name nor parameters
applied. -/
theorem allocator_name_params_amended (st : MultiQueryPlannerAllocator)
    (algo new_name : String) (cfg : ConfigMap) :
    (((mapFind cfg "multi_query_planning_enabled").bind lexicalCastBool = some false ∨
        mapFind cfg "multi_query_planning_enabled" = none) →
     ∃ st', allocatePlanner st algo new_name cfg =
       .ok (some ⟨algo, if new_name = "" then none else some new_name, some cfg, false⟩,
            st')) ∧
    ((mapFind cfg "multi_query_planning_enabled").bind lexicalCastBool = some true →
     mapFind st.planners new_name = none →
     boolKeyOk (mapErase cfg "multi_query_planning_enabled") "load_planner_data" = true →
     boolKeyOk (mapErase (mapErase cfg "multi_query_planning_enabled")
         "load_planner_data") "store_planner_data" = true →
     ∃ p st', allocatePlanner st algo new_name cfg = .ok (some p, st') ∧
       p.nameSet = (if new_name = "" then none else some new_name) ∧
       p.paramsSet = some cfg) ∧
    ((mapFind cfg "multi_query_planning_enabled").bind lexicalCastBool = some true →
     supportsPersistentReconstruction algo = true →
     ∀ live, mapFind st.planners new_name = some (some live) →
     allocatePlanner st algo new_name cfg =
       .ok (some ⟨algo, none, none, true⟩,
            ⟨mapSet st.planners new_name (some ⟨algo, none, none, true⟩),
             st.planner_data_storage_paths⟩)) := by
  refine ⟨?_, ?_, ?_⟩
  · intro hmq
    cases hmq with
    | inl hfalse =>
      cases h1 : mapFind cfg "multi_query_planning_enabled" with
      | none => rw [h1] at hfalse; simp at hfalse
      | some v =>
        rw [h1] at hfalse
        simp only [Option.some_bind] at hfalse
        simp only [allocatePlanner, h1, hfalse]
        rw [allocatePlannerImpl_planner]
        exact ⟨_, rfl⟩
    | inr habsent =>
      simp only [allocatePlanner, habsent]
      rw [allocatePlannerImpl_planner]
      exact ⟨_, rfl⟩
  · intro hmq hlive hload hstore
    rw [allocatePlanner_mq_true st algo new_name cfg hmq]
    obtain ⟨load, store, path, heq⟩ :=
      allocatePlannerMultiQuery_nolive st algo new_name cfg
        (mapErase cfg "multi_query_planning_enabled") hlive hload hstore
    rw [heq, allocatePlannerImpl_planner]
    exact ⟨_, _, rfl, rfl, rfl⟩
  · intro hmq hsup live hlive
    rw [allocatePlanner_mq_true st algo new_name cfg hmq]
    rw [allocatePlannerMultiQuery_live st algo new_name cfg _ live hlive]
    simp [allocatePersistentPlanner, hsup]

/-- C6 witness: instantiating the amended theorem's reuse branch — the reconstructed
PRMstar planner carries neither the requested name "q" nor any applied parameters. -/
theorem allocator_name_params_amended_witness :
    allocatePlanner ⟨[("q", some prmStarLiveInstance)], []⟩ "geometric::PRMstar" "q"
        [("multi_query_planning_enabled", "1")] =
      .ok (some ⟨"geometric::PRMstar", none, none, true⟩,
           ⟨mapSet [("q", some prmStarLiveInstance)] "q"
              (some ⟨"geometric::PRMstar", none, none, true⟩), []⟩) :=
  (allocator_name_params_amended ⟨[("q", some prmStarLiveInstance)], []⟩
    "geometric::PRMstar" "q" [("multi_query_planning_enabled", "1")]).2.2
    rfl rfl prmStarLiveInstance rfl

/-! ## Cache lemmas -/

theorem applyManagerSettings_id (m : PlanningContextManager)
    (config : PlannerConfigurationSettings) (c : PlanningContext) :
    (applyManagerSettings m config c).id = c.id := by
  unfold applyManagerSettings
  by_cases h : doubleEpsilon < m.max_solution_segment_length <;> simp [h]

/-- Field values of a context after `applyManagerSettings`: the five unconditional
limits and the configuration, plus the conditionally written solution-segment length. -/
theorem applyManagerSettings_fields (m : PlanningContextManager)
    (config : PlannerConfigurationSettings) (c : PlanningContext) :
    (applyManagerSettings m config c).maxPlanningThreads = m.max_planning_threads ∧
    (applyManagerSettings m config c).maxGoalSamples = m.max_goal_samples ∧
    (applyManagerSettings m config c).maxStateSamplingAttempts =
      m.max_state_sampling_attempts ∧
    (applyManagerSettings m config c).maxGoalSamplingAttempts =
      m.max_goal_sampling_attempts ∧
    (applyManagerSettings m config c).minimumWaypointCount = m.minimum_waypoint_count ∧
    (applyManagerSettings m config c).specConfig = config.config ∧
    (doubleEpsilon < m.max_solution_segment_length →
      (applyManagerSettings m config c).maxSolutionSegmentLength =
        some m.max_solution_segment_length) := by
  unfold applyManagerSettings
  by_cases h : doubleEpsilon < m.max_solution_segment_length <;> simp [h]

theorem allHeld_firstUnique_none (l : List CachedContext) (h : allHeld l = true) :
    firstUnique l = none := by
  induction l with
  | nil => rfl
  | cons c rest ih =>
    simp only [allHeld, List.all_cons, Bool.and_eq_true, decide_eq_true_eq] at h
    simp only [firstUnique, if_neg h.1]
    exact ih (by simp only [allHeld]; exact h.2)

/-- The `firstUnique` scan finds exactly the first slot with no outside holder. -/
theorem firstUnique_decomp (pre : List CachedContext) (e : CachedContext)
    (post : List CachedContext) (hpre : allHeld pre = true)
    (he : e.outsideHolders = 0) :
    firstUnique (pre ++ e :: post) = some e.ctx := by
  induction pre with
  | nil => simp [firstUnique, he]
  | cons c rest ih =>
    simp only [allHeld, List.all_cons, Bool.and_eq_true, decide_eq_true_eq] at hpre
    simp only [List.cons_append, firstUnique, if_neg hpre.1]
    exact ih (by simp only [allHeld]; exact hpre.2)

theorem not_mem_allCachedIds_of_below (cache : CachedContexts) (nextId : Nat)
    (h : cacheIdsBelow cache nextId = true) : nextId ∉ allCachedIds cache := by
  intro hmem
  simp only [allCachedIds, List.mem_flatten, List.mem_map] at hmem
  obtain ⟨l, ⟨p, hp, rfl⟩, hin⟩ := hmem
  simp only [List.mem_map] at hin
  obtain ⟨c, hc, hid⟩ := hin
  simp only [cacheIdsBelow, List.all_eq_true, decide_eq_true_eq] at h
  have := h p hp c hc
  omega

theorem cacheEntry_mapSet_self (cache : CachedContexts) (key : String × String)
    (l : List CachedContext) : cacheEntry ⟨mapSet cache.contexts key l⟩ key = l := by
  simp [cacheEntry, mapFind_mapSet_self]

/-- Reduction of the per-configuration acquisition on a cache hit. -/
theorem getPlanningContextForConfig_hit (m : PlanningContextManager)
    (cache : CachedContexts) (nextId : Nat) (config : PlannerConfigurationSettings)
    (ft : String) (c : PlanningContext)
    (h : firstUnique (cacheEntry cache (config.name, ft)) = some c) :
    getPlanningContextForConfig m cache nextId config ft =
      (applyManagerSettings m config c,
       ⟨mapSet cache.contexts (config.name, ft)
          (setFirstUnique (applyManagerSettings m config c)
            (cacheEntry cache (config.name, ft)))⟩,
       nextId) := by
  simp [getPlanningContextForConfig, h]

/-- Reduction of the acquisition on a miss for a non-constrained factory type: fresh
construction and insertion at the end of the entry sequence. -/
theorem getPlanningContextForConfig_miss (m : PlanningContextManager)
    (cache : CachedContexts) (nextId : Nat) (config : PlannerConfigurationSettings)
    (ft : String)
    (h : firstUnique (cacheEntry cache (config.name, ft)) = none)
    (hft : ft ≠ constrainedParameterizationType) :
    getPlanningContextForConfig m cache nextId config ft =
      (applyManagerSettings m config (newPlanningContext nextId config),
       ⟨mapSet cache.contexts (config.name, ft)
          (cacheEntry cache (config.name, ft) ++
            [⟨applyManagerSettings m config (newPlanningContext nextId config), 0⟩])⟩,
       nextId + 1) := by
  simp [getPlanningContextForConfig, h, hft]

/-- Reduction of the acquisition on a miss for the constrained factory type: fresh
construction without insertion. -/
theorem getPlanningContextForConfig_miss_constrained (m : PlanningContextManager)
    (cache : CachedContexts) (nextId : Nat) (config : PlannerConfigurationSettings)
    (h : firstUnique (cacheEntry cache
        (config.name, constrainedParameterizationType)) = none) :
    getPlanningContextForConfig m cache nextId config constrainedParameterizationType =
      (applyManagerSettings m config (newPlanningContext nextId config), cache,
       nextId + 1) := by
  simp [getPlanningContextForConfig, h]

/-- Every acquisition returns a context that went through `applyManagerSettings`. -/
theorem getPlanningContextForConfig_applied (m : PlanningContextManager)
    (cache : CachedContexts) (nextId : Nat) (config : PlannerConfigurationSettings)
    (ft : String) :
    ∃ c0, (getPlanningContextForConfig m cache nextId config ft).1 =
      applyManagerSettings m config c0 := by
  cases h : firstUnique (cacheEntry cache (config.name, ft)) with
  | some c =>
    rw [getPlanningContextForConfig_hit m cache nextId config ft c h]
    exact ⟨c, rfl⟩
  | none =>
    by_cases hft : ft = constrainedParameterizationType
    · subst hft
      rw [getPlanningContextForConfig_miss_constrained m cache nextId config h]
      exact ⟨_, rfl⟩
    · rw [getPlanningContextForConfig_miss m cache nextId config ft h hft]
      exact ⟨_, rfl⟩

/-- C2 counterexample: acquiring a context for the constrained factory type on an empty
cache (so every cached context for the key is trivially held elsewhere) constructs a new
context (the fresh-id counter advances) but does not append it to the cache entry — the
cache is unchanged — refuting "a new, distinct context is constructed, appended to the
cache entry, and returned" as stated for every factory. -/
theorem contextAcquisition_append_counterexample :
    (getPlanningContextForConfig mgrSegZero ⟨[]⟩ 0 cfgPlain
       constrainedParameterizationType).2.1 = ⟨[]⟩ ∧
    (getPlanningContextForConfig mgrSegZero ⟨[]⟩ 0 cfgPlain
       constrainedParameterizationType).2.2 = 1 ∧
    cacheEntry ⟨[]⟩ (cfgPlain.name, constrainedParameterizationType) = [] :=
  ⟨rfl, rfl, rfl⟩

/-- C2 amended: (i) if under the key (configuration name, factory type) the cache holds
a context with no other current holder, the first such context in the entry's sequence
is returned and nothing is constructed; (ii) if every cached context for the key is held
elsewhere, a new context distinct from everything cached is constructed and returned,
and — unless the factory type is the constrained-planning type — appended to the cache
entry, so that a second acquisition with no intervening holder returns the identical
context instance. -/
theorem contextAcquisition_cache_policy (m : PlanningContextManager)
    (cache : CachedContexts) (nextId : Nat) (config : PlannerConfigurationSettings)
    (ft : String) :
    (∀ pre e post,
       cacheEntry cache (config.name, ft) = pre ++ e :: post →
       allHeld pre = true → e.outsideHolders = 0 →
       (getPlanningContextForConfig m cache nextId config ft).1.id = e.ctx.id ∧
       (getPlanningContextForConfig m cache nextId config ft).2.2 = nextId) ∧
    (allHeld (cacheEntry cache (config.name, ft)) = true →
       (getPlanningContextForConfig m cache nextId config ft).1.id = nextId ∧
       (getPlanningContextForConfig m cache nextId config ft).2.2 = nextId + 1 ∧
       (cacheIdsBelow cache nextId = true →
         (getPlanningContextForConfig m cache nextId config ft).1.id ∉
           allCachedIds cache) ∧
       (ft ≠ constrainedParameterizationType →
         cacheEntry (getPlanningContextForConfig m cache nextId config ft).2.1
             (config.name, ft) =
           cacheEntry cache (config.name, ft) ++
             [⟨(getPlanningContextForConfig m cache nextId config ft).1, 0⟩] ∧
         (getPlanningContextForConfig m
             (getPlanningContextForConfig m cache nextId config ft).2.1
             (getPlanningContextForConfig m cache nextId config ft).2.2
             config ft).1.id =
           (getPlanningContextForConfig m cache nextId config ft).1.id)) := by
  constructor
  · intro pre e post hdecomp hpre he
    have hfu : firstUnique (cacheEntry cache (config.name, ft)) = some e.ctx := by
      rw [hdecomp]; exact firstUnique_decomp pre e post hpre he
    rw [getPlanningContextForConfig_hit m cache nextId config ft e.ctx hfu]
    exact ⟨applyManagerSettings_id m config e.ctx, rfl⟩
  · intro hheld
    have hfu := allHeld_firstUnique_none _ hheld
    have hid : (applyManagerSettings m config (newPlanningContext nextId config)).id =
        nextId := by
      rw [applyManagerSettings_id]; rfl
    by_cases hft : ft = constrainedParameterizationType
    · subst hft
      rw [getPlanningContextForConfig_miss_constrained m cache nextId config hfu]
      refine ⟨hid, rfl, fun hb => ?_, fun hc => absurd rfl hc⟩
      rw [hid]
      exact not_mem_allCachedIds_of_below cache nextId hb
    · rw [getPlanningContextForConfig_miss m cache nextId config ft hfu hft]
      refine ⟨hid, rfl, fun hb => ?_, fun _ => ⟨?_, ?_⟩⟩
      · rw [hid]
        exact not_mem_allCachedIds_of_below cache nextId hb
      · rw [cacheEntry_mapSet_self]
      · have hfu2 : firstUnique (cacheEntry
            ⟨mapSet cache.contexts (config.name, ft)
              (cacheEntry cache (config.name, ft) ++
                [⟨applyManagerSettings m config (newPlanningContext nextId config), 0⟩])⟩
            (config.name, ft)) =
            some (applyManagerSettings m config (newPlanningContext nextId config)) := by
          rw [cacheEntry_mapSet_self]
          exact firstUnique_decomp (cacheEntry cache (config.name, ft)) _ [] hheld rfl
        rw [getPlanningContextForConfig_hit m _ (nextId + 1) config ft _ hfu2]
        exact applyManagerSettings_id m config _

/-- C2 witness: on a cache whose only context for the key is held elsewhere, acquisition
with id counter 3 constructs and returns context 3, appends it, and a second acquisition
returns the same instance. -/
theorem contextAcquisition_cache_policy_witness :
    (getPlanningContextForConfig mgrSegZero cacheHeldEntry 3 cfgPlain
       "JointModel").1.id = 3 ∧
    (getPlanningContextForConfig mgrSegZero cacheHeldEntry 3 cfgPlain
       "JointModel").2.2 = 4 ∧
    3 ∉ allCachedIds cacheHeldEntry ∧
    (getPlanningContextForConfig mgrSegZero
       (getPlanningContextForConfig mgrSegZero cacheHeldEntry 3 cfgPlain
         "JointModel").2.1
       (getPlanningContextForConfig mgrSegZero cacheHeldEntry 3 cfgPlain
         "JointModel").2.2
       cfgPlain "JointModel").1.id = 3 := by
  have h := (contextAcquisition_cache_policy mgrSegZero cacheHeldEntry 3 cfgPlain
    "JointModel").2 rfl
  refine ⟨h.1, h.2.1, ?_, ?_⟩
  · have := h.2.2.1 rfl
    rwa [h.1] at this
  · rw [(h.2.2.2 (by decide)).2, h.1]

/-- C3: on acquisition with the constrained-planning factory type (assuming no free
cached context under the key, the reachable situation since such contexts are never
inserted), the freshly built context is returned but the cache is left completely
unchanged — the entry's sequence never grows — and under the id invariant the fresh
context's id is not found anywhere in the resulting cache. -/
theorem constrainedContext_never_cached (m : PlanningContextManager)
    (cache : CachedContexts) (nextId : Nat) (config : PlannerConfigurationSettings)
    (hheld : allHeld (cacheEntry cache
        (config.name, constrainedParameterizationType)) = true) :
    (getPlanningContextForConfig m cache nextId config
       constrainedParameterizationType).2.1 = cache ∧
    (getPlanningContextForConfig m cache nextId config
       constrainedParameterizationType).1.id = nextId ∧
    (getPlanningContextForConfig m cache nextId config
       constrainedParameterizationType).2.2 = nextId + 1 ∧
    (cacheIdsBelow cache nextId = true →
      (getPlanningContextForConfig m cache nextId config
         constrainedParameterizationType).1.id ∉
        allCachedIds (getPlanningContextForConfig m cache nextId config
          constrainedParameterizationType).2.1) := by
  have hfu := allHeld_firstUnique_none _ hheld
  rw [getPlanningContextForConfig_miss_constrained m cache nextId config hfu]
  have hid : (applyManagerSettings m config (newPlanningContext nextId config)).id =
      nextId := by
    rw [applyManagerSettings_id]; rfl
  refine ⟨rfl, hid, rfl, fun hb => ?_⟩
  rw [hid]
  exact not_mem_allCachedIds_of_below cache nextId hb

/-- C3 witness: concrete constrained-type acquisition on the empty cache with counter 5:
the cache stays empty, the fresh context has id 5, and the counter advances. -/
theorem constrainedContext_never_cached_witness :
    (getPlanningContextForConfig mgrSegZero ⟨[]⟩ 5 cfgPlain
       constrainedParameterizationType).2.1 = (⟨[]⟩ : CachedContexts) ∧
    (getPlanningContextForConfig mgrSegZero ⟨[]⟩ 5 cfgPlain
       constrainedParameterizationType).1.id = 5 ∧
    (getPlanningContextForConfig mgrSegZero ⟨[]⟩ 5 cfgPlain
       constrainedParameterizationType).2.2 = 6 := by
  have h := constrainedContext_never_cached mgrSegZero ⟨[]⟩ 5 cfgPlain rfl
  exact ⟨h.1, h.2.1, h.2.2.1⟩

/-- C8 counterexample: a manager whose solution-segment-length limit is 0 (below machine
epsilon) together with a free cached context whose segment length was previously set to
5: the acquisition returns the cached context still carrying segment length 5 — the
manager's value 0 is not (re)applied — refuting the claim that all listed numeric limits
are (re)applied on every acquisition. -/
theorem segmentLength_not_reapplied :
    (getPlanningContextForConfig mgrSegZero cacheSeg5 7 cfgPlain
       "JointModel").1.maxSolutionSegmentLength = some 5 ∧
    mgrSegZero.max_solution_segment_length = 0 ∧
    some (5 : ℚ) ≠ some (0 : ℚ) :=
  ⟨by decide, rfl, by decide⟩

/-- C8 amended: on every acquisition, cache hit or miss alike, the manager's maximum
planning threads, maximum goal samples, maximum state/goal sampling attempts, minimum
waypoint count and the configuration's parameters are (re)applied to the returned
context; the maximum solution segment length is (re)applied exactly when the manager's
value exceeds machine epsilon. -/
theorem limits_reapplied_amended (m : PlanningContextManager) (cache : CachedContexts)
    (nextId : Nat) (config : PlannerConfigurationSettings) (ft : String) :
    (getPlanningContextForConfig m cache nextId config ft).1.maxPlanningThreads =
      m.max_planning_threads ∧
    (getPlanningContextForConfig m cache nextId config ft).1.maxGoalSamples =
      m.max_goal_samples ∧
    (getPlanningContextForConfig m cache nextId config ft).1.maxStateSamplingAttempts =
      m.max_state_sampling_attempts ∧
    (getPlanningContextForConfig m cache nextId config ft).1.maxGoalSamplingAttempts =
      m.max_goal_sampling_attempts ∧
    (getPlanningContextForConfig m cache nextId config ft).1.minimumWaypointCount =
      m.minimum_waypoint_count ∧
    (getPlanningContextForConfig m cache nextId config ft).1.specConfig =
      config.config ∧
    (doubleEpsilon < m.max_solution_segment_length →
      (getPlanningContextForConfig m cache nextId config
         ft).1.maxSolutionSegmentLength = some m.max_solution_segment_length) := by
  obtain ⟨c0, hc⟩ := getPlanningContextForConfig_applied m cache nextId config ft
  rw [hc]
  exact applyManagerSettings_fields m config c0

/-- C8 witness: with a manager whose segment-length limit is 1 (above epsilon), a fresh
acquisition carries all the manager's limits, segment length included. -/
theorem limits_reapplied_amended_witness :
    doubleEpsilon < mgrSegOne.max_solution_segment_length ∧
    (getPlanningContextForConfig mgrSegOne ⟨[]⟩ 0 cfgPlain
       "JointModel").1.maxSolutionSegmentLength =
      some mgrSegOne.max_solution_segment_length ∧
    (getPlanningContextForConfig mgrSegOne ⟨[]⟩ 0 cfgPlain
       "JointModel").1.maxPlanningThreads = mgrSegOne.max_planning_threads := by
  have heps : doubleEpsilon < mgrSegOne.max_solution_segment_length := by decide
  have h := limits_reapplied_amended mgrSegOne ⟨[]⟩ 0 cfgPlain "JointModel"
  exact ⟨heps, h.2.2.2.2.2.2 heps, h.1⟩

/-! ## Priority-selection lemmas (for the `getStateSpaceFactory(group, req)` loop) -/

theorem find?_cons_if {α : Type} (p : α → Bool) (a : α) (l : List α) :
    List.find? p (a :: l) = if p a then some a else List.find? p l := by
  cases h : p a <;> simp [List.find?, h]

theorem maxScoreFrom_le (group : String) (req : MotionPlanRequest) :
    ∀ (fs : List StateSpaceFactory) (prev : Int),
      prev ≤ maxScoreFrom group req prev fs := by
  intro fs
  induction fs with
  | nil => intro prev; exact le_refl prev
  | cons g rest ih =>
    intro prev
    calc prev ≤ max prev (g.canRepresentProblem group req) := le_max_left _ _
      _ ≤ maxScoreFrom group req (max prev (g.canRepresentProblem group req)) rest := ih _

theorem score_le_maxScoreFrom (group : String) (req : MotionPlanRequest) :
    ∀ (fs : List StateSpaceFactory) (prev : Int) (f : StateSpaceFactory), f ∈ fs →
      f.canRepresentProblem group req ≤ maxScoreFrom group req prev fs := by
  intro fs
  induction fs with
  | nil => intro prev f h; exact absurd h (List.not_mem_nil f)
  | cons g rest ih =>
    intro prev f h
    rcases List.mem_cons.mp h with rfl | h'
    · calc f.canRepresentProblem group req ≤
          max prev (f.canRepresentProblem group req) := le_max_right _ _
        _ ≤ maxScoreFrom group req (max prev (f.canRepresentProblem group req)) rest :=
          maxScoreFrom_le group req rest _
    · exact ih _ f h'

theorem maxScoreFrom_eq_of_le (group : String) (req : MotionPlanRequest) :
    ∀ (fs : List StateSpaceFactory) (prev : Int),
      (∀ f ∈ fs, f.canRepresentProblem group req ≤ prev) →
      maxScoreFrom group req prev fs = prev := by
  intro fs
  induction fs with
  | nil => intro prev _; rfl
  | cons g rest ih =>
    intro prev h
    have hg : g.canRepresentProblem group req ≤ prev := h g (List.mem_cons_self g rest)
    show maxScoreFrom group req (max prev (g.canRepresentProblem group req)) rest = prev
    rw [max_eq_left hg]
    exact ih prev (fun f hf => h f (List.mem_cons_of_mem g hf))

theorem exists_eq_maxScoreFrom (group : String) (req : MotionPlanRequest) :
    ∀ (fs : List StateSpaceFactory) (prev : Int),
      prev < maxScoreFrom group req prev fs →
      ∃ f ∈ fs, f.canRepresentProblem group req = maxScoreFrom group req prev fs := by
  intro fs
  induction fs with
  | nil => intro prev h; exact absurd h (lt_irrefl prev)
  | cons g rest ih =>
    intro prev h
    by_cases h2 : max prev (g.canRepresentProblem group req) <
        maxScoreFrom group req (max prev (g.canRepresentProblem group req)) rest
    · obtain ⟨f, hf, hfe⟩ := ih _ h2
      exact ⟨f, List.mem_cons_of_mem g hf, hfe⟩
    · have hle := maxScoreFrom_le group req rest
        (max prev (g.canRepresentProblem group req))
      have hM : maxScoreFrom group req
          (max prev (g.canRepresentProblem group req)) rest =
          max prev (g.canRepresentProblem group req) :=
        le_antisymm (not_lt.mp h2) hle
      refine ⟨g, List.mem_cons_self g rest, ?_⟩
      show g.canRepresentProblem group req =
        maxScoreFrom group req (max prev (g.canRepresentProblem group req)) rest
      rw [hM]
      have hlt : prev < max prev (g.canRepresentProblem group req) := by
        have h' : prev < maxScoreFrom group req
            (max prev (g.canRepresentProblem group req)) rest := h
        rwa [hM] at h'
      rcases le_or_lt (g.canRepresentProblem group req) prev with hsp | hps
      · rw [max_eq_left hsp] at hlt; exact absurd hlt (lt_irrefl prev)
      · rw [max_eq_right hps.le]

/-- Characterization of the selection loop: starting from champion `best` and threshold
`prev`, the loop returns the first factory attaining the running maximum when some
factory beats `prev`, and `best` otherwise. -/
theorem byProblemAux_eq (group : String) (req : MotionPlanRequest) :
    ∀ (fs : List StateSpaceFactory) (prev : Int) (best : Option StateSpaceFactory),
      getStateSpaceFactoryByProblemAux group req best prev fs =
        if prev < maxScoreFrom group req prev fs then
          fs.find? (fun f =>
            decide (f.canRepresentProblem group req = maxScoreFrom group req prev fs))
        else best := by
  intro fs
  induction fs with
  | nil =>
    intro prev best
    simp [getStateSpaceFactoryByProblemAux, maxScoreFrom]
  | cons g rest ih =>
    intro prev best
    by_cases hgs : prev < g.canRepresentProblem group req
    · rw [show getStateSpaceFactoryByProblemAux group req best prev (g :: rest) =
          getStateSpaceFactoryByProblemAux group req (some g)
            (g.canRepresentProblem group req) rest from by
        simp [getStateSpaceFactoryByProblemAux, hgs]]
      rw [ih (g.canRepresentProblem group req) (some g)]
      have hM : maxScoreFrom group req prev (g :: rest) =
          maxScoreFrom group req (g.canRepresentProblem group req) rest := by
        show maxScoreFrom group req (max prev (g.canRepresentProblem group req)) rest = _
        rw [max_eq_right hgs.le]
      rw [hM]
      have hle : g.canRepresentProblem group req ≤
          maxScoreFrom group req (g.canRepresentProblem group req) rest :=
        maxScoreFrom_le group req rest _
      have hcond : prev < maxScoreFrom group req (g.canRepresentProblem group req) rest :=
        lt_of_lt_of_le hgs hle
      rw [if_pos hcond]
      by_cases heq : g.canRepresentProblem group req =
          maxScoreFrom group req (g.canRepresentProblem group req) rest
      · rw [if_neg (by rw [← heq]; exact lt_irrefl _)]
        rw [find?_cons_if]
        simp only [decide_eq_true_eq]
        rw [if_pos heq]
      · have hlt : g.canRepresentProblem group req <
            maxScoreFrom group req (g.canRepresentProblem group req) rest :=
          lt_of_le_of_ne hle heq
        rw [if_pos hlt]
        rw [find?_cons_if]
        simp only [decide_eq_true_eq]
        rw [if_neg heq]
    · rw [show getStateSpaceFactoryByProblemAux group req best prev (g :: rest) =
          getStateSpaceFactoryByProblemAux group req best prev rest from by
        simp [getStateSpaceFactoryByProblemAux, hgs]]
      rw [ih prev best]
      have hM : maxScoreFrom group req prev (g :: rest) =
          maxScoreFrom group req prev rest := by
        show maxScoreFrom group req (max prev (g.canRepresentProblem group req)) rest = _
        rw [max_eq_left (not_lt.mp hgs)]
      rw [hM]
      by_cases hcond : prev < maxScoreFrom group req prev rest
      · rw [if_pos hcond, if_pos hcond]
        have hne : g.canRepresentProblem group req ≠
            maxScoreFrom group req prev rest := by
          intro he
          exact absurd hcond (not_lt.mpr (he ▸ not_lt.mp hgs))
        rw [find?_cons_if]
        simp only [decide_eq_true_eq]
        rw [if_neg hne]
      · rw [if_neg hcond, if_neg hcond]

/-- C7: every registered factory scores the (group, request) pair; when some factory
scores above zero, the loop returns the earliest factory attaining the (strictly
greatest) maximal score — ties resolved in favor of the earlier-registered factory by
the strict greater-than update — and that factory's score dominates all others; when no
factory scores above zero, selection returns the empty factory. -/
theorem factorySelection_first_max (fs : List StateSpaceFactory) (group : String)
    (req : MotionPlanRequest) :
    ((∃ f ∈ fs, 0 < f.canRepresentProblem group req) →
      0 < maxScoreFrom group req 0 fs ∧
      getStateSpaceFactoryByProblem fs group req =
        fs.find? (fun f =>
          decide (f.canRepresentProblem group req = maxScoreFrom group req 0 fs)) ∧
      ∃ f, getStateSpaceFactoryByProblem fs group req = some f ∧ f ∈ fs ∧
        f.canRepresentProblem group req = maxScoreFrom group req 0 fs ∧
        ∀ g ∈ fs, g.canRepresentProblem group req ≤ f.canRepresentProblem group req) ∧
    ((∀ f ∈ fs, f.canRepresentProblem group req ≤ 0) →
      getStateSpaceFactoryByProblem fs group req = none) := by
  constructor
  · rintro ⟨f0, hf0, hpos⟩
    have hlt : (0 : Int) < maxScoreFrom group req 0 fs :=
      lt_of_lt_of_le hpos (score_le_maxScoreFrom group req fs 0 f0 hf0)
    have hfind : getStateSpaceFactoryByProblem fs group req =
        fs.find? (fun f =>
          decide (f.canRepresentProblem group req = maxScoreFrom group req 0 fs)) := by
      unfold getStateSpaceFactoryByProblem
      rw [byProblemAux_eq group req fs 0 none, if_pos hlt]
    refine ⟨hlt, hfind, ?_⟩
    obtain ⟨fm, hfm, hfme⟩ := exists_eq_maxScoreFrom group req fs 0 hlt
    have hsome : (fs.find? (fun f =>
        decide (f.canRepresentProblem group req =
          maxScoreFrom group req 0 fs))).isSome := by
      rw [List.find?_isSome]
      exact ⟨fm, hfm, by simp [hfme]⟩
    obtain ⟨fr, hfr⟩ := Option.isSome_iff_exists.mp hsome
    have hfre : fr.canRepresentProblem group req = maxScoreFrom group req 0 fs := by
      have := List.find?_some hfr
      simpa using this
    refine ⟨fr, by rw [hfind]; exact hfr, List.mem_of_find?_eq_some hfr, hfre, ?_⟩
    intro g hg
    rw [hfre]
    exact score_le_maxScoreFrom group req fs 0 g hg
  · intro hall
    unfold getStateSpaceFactoryByProblem
    rw [byProblemAux_eq group req fs 0 none,
      maxScoreFrom_eq_of_le group req fs 0 hall]
    simp

/-- C7 witness: on three factories scoring 5, 10 and 3, the loop selects the factory
scoring 10, which dominates all scores. -/
theorem factorySelection_first_max_witness :
    getStateSpaceFactoryByProblem scoringExample "g" reqArmOnePos =
      some factoryScoring10 ∧
    ∃ f, getStateSpaceFactoryByProblem scoringExample "g" reqArmOnePos = some f ∧
      f ∈ scoringExample ∧
      f.canRepresentProblem "g" reqArmOnePos =
        maxScoreFrom "g" reqArmOnePos 0 scoringExample ∧
      ∀ g ∈ scoringExample,
        g.canRepresentProblem "g" reqArmOnePos ≤
          f.canRepresentProblem "g" reqArmOnePos :=
  ⟨rfl,
   ((factorySelection_first_max scoringExample "g" reqArmOnePos).1
     ⟨factoryScoring10,
      List.mem_cons_of_mem _ (List.mem_cons_self _ _), by decide⟩).2.2⟩

/-! ## Three-tier selection and top-level request handling -/

/-- Behaviour of tiers 2/3 when the `enforce_joint_model_state_space` value parses:
flag true forces the joint-model factory, otherwise priority selection runs. -/
theorem selectTier23_spec (fs : List StateSpaceFactory) (cfg : ConfigMap)
    (group : String) (req : MotionPlanRequest)
    (h2 : boolKeyOk cfg "enforce_joint_model_state_space" = true) :
    (configFlagTrue cfg "enforce_joint_model_state_space" = true →
      selectTier23 fs cfg group req =
        .ok (getStateSpaceFactoryByType fs jointModelParameterizationType)) ∧
    (configFlagTrue cfg "enforce_joint_model_state_space" = false →
      selectTier23 fs cfg group req =
        .ok (getStateSpaceFactoryByProblem fs group req)) := by
  cases hf : mapFind cfg "enforce_joint_model_state_space" with
  | none =>
    constructor
    · intro ht; rw [configFlagTrue, hf] at ht; simp at ht
    · intro _; simp [selectTier23, hf]
  | some v =>
    simp only [boolKeyOk, hf] at h2
    cases hc : lexicalCastBool v with
    | none => rw [hc] at h2; simp at h2
    | some b =>
      cases b with
      | false =>
        constructor
        · intro ht; rw [configFlagTrue, hf] at ht; simp [hc] at ht
        · intro _; simp [selectTier23, hf, hc]
      | true =>
        constructor
        · intro _; simp [selectTier23, hf, hc]
        · intro hft; rw [configFlagTrue, hf] at hft; simp [hc] at hft

/-- C1: for a resolved configuration whose two enforcement flags parse, the state-space
factory is selected by the three-tier policy in order — (1) constrained flag true with
exactly one position or exactly one orientation constraint forces the constrained
factory; (2) otherwise joint-model flag true forces the joint-model factory;
(3) otherwise priority scoring decides — and in particular a true constrained flag with
zero path constraints falls through to the lower tiers. -/
theorem stateSpaceSelection_three_tier (fs : List StateSpaceFactory) (cfg : ConfigMap)
    (group : String) (req : MotionPlanRequest)
    (h1 : boolKeyOk cfg "enforce_constrained_state_space" = true)
    (h2 : boolKeyOk cfg "enforce_joint_model_state_space" = true) :
    (configFlagTrue cfg "enforce_constrained_state_space" = true ∧
       (req.position_constraints = 1 ∨ req.orientation_constraints = 1) →
     selectStateSpaceFactory fs cfg group req =
       .ok (getStateSpaceFactoryByType fs constrainedParameterizationType)) ∧
    (¬(configFlagTrue cfg "enforce_constrained_state_space" = true ∧
        (req.position_constraints = 1 ∨ req.orientation_constraints = 1)) →
     configFlagTrue cfg "enforce_joint_model_state_space" = true →
     selectStateSpaceFactory fs cfg group req =
       .ok (getStateSpaceFactoryByType fs jointModelParameterizationType)) ∧
    (¬(configFlagTrue cfg "enforce_constrained_state_space" = true ∧
        (req.position_constraints = 1 ∨ req.orientation_constraints = 1)) →
     configFlagTrue cfg "enforce_joint_model_state_space" = false →
     selectStateSpaceFactory fs cfg group req =
       .ok (getStateSpaceFactoryByProblem fs group req)) ∧
    (configFlagTrue cfg "enforce_constrained_state_space" = true →
     req.position_constraints = 0 → req.orientation_constraints = 0 →
     selectStateSpaceFactory fs cfg group req = selectTier23 fs cfg group req) := by
  cases hf : mapFind cfg "enforce_constrained_state_space" with
  | none =>
    have hflag : configFlagTrue cfg "enforce_constrained_state_space" = false := by
      simp [configFlagTrue, hf]
    have hsel : selectStateSpaceFactory fs cfg group req =
        selectTier23 fs cfg group req := by
      simp [selectStateSpaceFactory, hf]
    refine ⟨?_, ?_, ?_, ?_⟩
    · rintro ⟨ht, -⟩; rw [hflag] at ht; simp at ht
    · intro _ hj; rw [hsel]; exact (selectTier23_spec fs cfg group req h2).1 hj
    · intro _ hj; rw [hsel]; exact (selectTier23_spec fs cfg group req h2).2 hj
    · intro ht; rw [hflag] at ht; simp at ht
  | some v =>
    simp only [boolKeyOk, hf] at h1
    cases hc : lexicalCastBool v with
    | none => rw [hc] at h1; simp at h1
    | some b =>
      have hflag : configFlagTrue cfg "enforce_constrained_state_space" = b := by
        simp [configFlagTrue, hf, hc]
      cases b with
      | false =>
        have hsel : selectStateSpaceFactory fs cfg group req =
            selectTier23 fs cfg group req := by
          simp [selectStateSpaceFactory, hf, hc]
        refine ⟨?_, ?_, ?_, ?_⟩
        · rintro ⟨ht, -⟩; rw [hflag] at ht; simp at ht
        · intro _ hj; rw [hsel]; exact (selectTier23_spec fs cfg group req h2).1 hj
        · intro _ hj; rw [hsel]; exact (selectTier23_spec fs cfg group req h2).2 hj
        · intro ht; rw [hflag] at ht; simp at ht
      | true =>
        by_cases hcount : req.position_constraints = 1 ∨ req.orientation_constraints = 1
        · have hb : (req.position_constraints == 1 ||
              req.orientation_constraints == 1) = true := by
            rcases hcount with h | h <;> simp [h]
          have hsel : selectStateSpaceFactory fs cfg group req =
              .ok (getStateSpaceFactoryByType fs constrainedParameterizationType) := by
            simp [selectStateSpaceFactory, hf, hc, hb]
          refine ⟨fun _ => hsel, ?_, ?_, ?_⟩
          · intro hneg _; exact absurd ⟨hflag, hcount⟩ hneg
          · intro hneg _; exact absurd ⟨hflag, hcount⟩ hneg
          · intro _ hp ho
            rcases hcount with h | h
            · exact absurd h (by omega)
            · exact absurd h (by omega)
        · have hb : (req.position_constraints == 1 ||
              req.orientation_constraints == 1) = false := by
            push_neg at hcount
            simp only [Bool.or_eq_false_iff, beq_eq_false_iff_ne, ne_eq]
            exact ⟨hcount.1, hcount.2⟩
          have hsel : selectStateSpaceFactory fs cfg group req =
              selectTier23 fs cfg group req := by
            simp [selectStateSpaceFactory, hf, hc, hb]
          refine ⟨?_, ?_, ?_, fun _ _ _ => hsel⟩
          · rintro ⟨-, hcnt⟩; exact absurd hcnt hcount
          · intro _ hj; rw [hsel]; exact (selectTier23_spec fs cfg group req h2).1 hj
          · intro _ hj; rw [hsel]; exact (selectTier23_spec fs cfg group req h2).2 hj

/-- C1 witness: a configuration setting the constrained flag, on a request with exactly
one position constraint, selects the constrained factory (present among the default
factories). -/
theorem stateSpaceSelection_three_tier_witness :
    selectStateSpaceFactory defaultFactories cfgEnforceConstrained "arm" reqArmOnePos =
      .ok (getStateSpaceFactoryByType defaultFactories
        constrainedParameterizationType) ∧
    getStateSpaceFactoryByType defaultFactories constrainedParameterizationType =
      some constrainedFactory :=
  ⟨(stateSpaceSelection_three_tier defaultFactories cfgEnforceConstrained "arm"
      reqArmOnePos rfl rfl).1 ⟨rfl, Or.inl rfl⟩, rfl⟩

/-- C9 counterexample: three in-file fault paths escape the public entry point instead
of being reported through the error-code output, each refuting "no failure escapes the
manager's public request-handling entry point as an unhandled fault". (1) A
configuration storing the unparsable boolean "yes" under
`enforce_constrained_state_space` makes `boost::lexical_cast<bool>` throw during
state-space selection (source line 557). (2) A configuration that selects fine but
stores "yes" under `multi_query_planning_enabled` makes the allocator's cast (source
line 117) throw inside the Configure step; `boost::bad_lexical_cast` is not an
`ompl::Exception`, so the catch at source line 603 does not stop it. (3) A request for
which no registered factory scores above zero makes priority selection return the
`EMPTY` null factory, which is dereferenced at source line 352. -/
theorem malformedFlag_exception_propagates :
    getPlanningContextTop mgrBadFlag emptyAllocator ⟨[]⟩ 0 true reqArmOnePos extAllOk =
      .error .badLexicalCast ∧
    getPlanningContextTop mgrBadMqValue emptyAllocator ⟨[]⟩ 0 true reqArmOnePos
      extInvokesAllocator = .error .badLexicalCast ∧
    getPlanningContextTop mgrNoRepresentable emptyAllocator ⟨[]⟩ 0 true reqArmOnePos
      extAllOk = .error .nullPointerDeref ∧
    lexicalCastBool "yes" = none :=
  ⟨rfl, rfl, rfl, rfl⟩

/-- C9 amended: provided the request is free of the in-file fault conditions — the
resolved configuration's enforcement-flag values parse and a factory is selected, and
the allocator call made during the Configure step succeeds (each condition matched by a
demonstrated escape in the counterexample) — no failure escapes the entry point: every
outcome is reported through the error-code output, and in particular an
`ompl::Exception` thrown by the external part of the Configure step is caught and
converted to a null context with the generic failure code. -/
theorem no_fault_escape_amended (m : PlanningContextManager)
    (alloc : MultiQueryPlannerAllocator) (cache : CachedContexts)
    (nextId : Nat) (scene : Bool) (req : MotionPlanRequest) (ext : ExternalOutcomes)
    (hok : requestFaultFree m alloc req ext = true) :
    (∃ r, getPlanningContextTop m alloc cache nextId scene req ext = .ok r) ∧
    (req.group_name ≠ "" →
     ext.pathConstraintsError = none → ext.goalConstraintsError = none →
     ext.configureThrowsOmplException = true →
     ∃ c n, getPlanningContextTop m alloc cache nextId scene req ext =
       .ok ⟨none, .failure, c, n⟩) := by
  by_cases hg : req.group_name = ""
  · refine ⟨⟨⟨none, .invalidGroupName, cache, nextId⟩, ?_⟩, fun hne => absurd hg hne⟩
    simp [getPlanningContextTop, hg]
  · cases hscene : scene with
    | false =>
      constructor
      · exact ⟨⟨none, .failure, cache, nextId⟩, by simp [getPlanningContextTop, hg]⟩
      · intro _ _ _ _
        exact ⟨cache, nextId, by simp [getPlanningContextTop, hg]⟩
    | true =>
      cases hres : resolvePlannerConfig m.planner_configs req with
      | none =>
        constructor
        · exact ⟨⟨none, .failure, cache, nextId⟩,
            by simp [getPlanningContextTop, hg, hres]⟩
        · intro _ _ _ _
          exact ⟨cache, nextId, by simp [getPlanningContextTop, hg, hres]⟩
      | some pc =>
        have hsel : ∃ fa, selectStateSpaceFactory m.state_space_factories pc.config
            pc.group req = .ok (some fa) := by
          simp only [requestFaultFree, hres] at hok
          cases hs : selectStateSpaceFactory m.state_space_factories pc.config
              pc.group req with
          | error e => rw [hs] at hok; simp at hok
          | ok o =>
            rw [hs] at hok
            cases o with
            | none => simp at hok
            | some fa => exact ⟨fa, rfl⟩
        obtain ⟨fa, hs⟩ := hsel
        have halloc : ∀ ar, ext.allocatorRequest = some ar →
            ∃ pr, allocatePlanner alloc ar.1 ar.2 pc.config = .ok pr := by
          intro ar har
          simp only [requestFaultFree, hres, hs, har] at hok
          cases hal : allocatePlanner alloc ar.1 ar.2 pc.config with
          | error e => rw [hal] at hok; simp at hok
          | ok pr => exact ⟨pr, rfl⟩
        constructor
        · cases hp : ext.pathConstraintsError with
          | some e =>
            exact ⟨⟨none, e, (getPlanningContextForConfig m cache nextId pc fa.type).2.1,
                    (getPlanningContextForConfig m cache nextId pc fa.type).2.2⟩,
              by simp [getPlanningContextTop, hg, hres, hs, hp]⟩
          | none =>
            cases hgl : ext.goalConstraintsError with
            | some e =>
              exact ⟨⟨none, e,
                      (getPlanningContextForConfig m cache nextId pc fa.type).2.1,
                      (getPlanningContextForConfig m cache nextId pc fa.type).2.2⟩,
                by simp [getPlanningContextTop, hg, hres, hs, hp, hgl]⟩
            | none =>
              cases har : ext.allocatorRequest with
              | none =>
                cases hcfg : ext.configureThrowsOmplException with
                | true =>
                  exact ⟨⟨none, .failure,
                          (getPlanningContextForConfig m cache nextId pc fa.type).2.1,
                          (getPlanningContextForConfig m cache nextId pc fa.type).2.2⟩,
                    by simp [getPlanningContextTop, hg, hres, hs, hp, hgl, har, hcfg]⟩
                | false =>
                  exact ⟨⟨some (getPlanningContextForConfig m cache nextId pc
                            fa.type).1, .success,
                          (getPlanningContextForConfig m cache nextId pc fa.type).2.1,
                          (getPlanningContextForConfig m cache nextId pc fa.type).2.2⟩,
                    by simp [getPlanningContextTop, hg, hres, hs, hp, hgl, har, hcfg]⟩
              | some ar =>
                obtain ⟨pr, hal⟩ := halloc ar har
                cases hcfg : ext.configureThrowsOmplException with
                | true =>
                  exact ⟨⟨none, .failure,
                          (getPlanningContextForConfig m cache nextId pc fa.type).2.1,
                          (getPlanningContextForConfig m cache nextId pc fa.type).2.2⟩,
                    by simp [getPlanningContextTop, hg, hres, hs, hp, hgl, har, hal,
                      hcfg]⟩
                | false =>
                  exact ⟨⟨some (getPlanningContextForConfig m cache nextId pc
                            fa.type).1, .success,
                          (getPlanningContextForConfig m cache nextId pc fa.type).2.1,
                          (getPlanningContextForConfig m cache nextId pc fa.type).2.2⟩,
                    by simp [getPlanningContextTop, hg, hres, hs, hp, hgl, har, hal,
                      hcfg]⟩
        · intro _ hp hgl hcfg
          cases har : ext.allocatorRequest with
          | none =>
            exact ⟨(getPlanningContextForConfig m cache nextId pc fa.type).2.1,
                   (getPlanningContextForConfig m cache nextId pc fa.type).2.2,
              by simp [getPlanningContextTop, hg, hres, hs, hp, hgl, har, hcfg]⟩
          | some ar =>
            obtain ⟨pr, hal⟩ := halloc ar har
            exact ⟨(getPlanningContextForConfig m cache nextId pc fa.type).2.1,
                   (getPlanningContextForConfig m cache nextId pc fa.type).2.2,
              by simp [getPlanningContextTop, hg, hres, hs, hp, hgl, har, hal, hcfg]⟩

/-- C9 witness: a well-formed request whose Configure step allocates an RRT planner
(successfully) and whose external configure body then throws an `ompl::Exception`
yields a null context with the generic failure code, not a propagated exception. -/
theorem no_fault_escape_amended_witness :
    ∃ c n, getPlanningContextTop mgrPlain emptyAllocator ⟨[]⟩ 0 true reqArmOnePos
      extConfigureThrows = .ok ⟨none, .failure, c, n⟩ :=
  (no_fault_escape_amended mgrPlain emptyAllocator ⟨[]⟩ 0 true reqArmOnePos
    extConfigureThrows rfl).2 (by decide) rfl rfl rfl

/-- C10: when path- or goal-constraint validation fails after context acquisition, the
entry point returns a null context with the error code written by the callee, and the
cache is exactly the post-acquisition cache — in particular a freshly built cacheable
context stays cached (its id is found under the key) despite the failure. -/
theorem constraintFailure_keeps_cache (m : PlanningContextManager)
    (alloc : MultiQueryPlannerAllocator)
    (cache : CachedContexts) (nextId : Nat) (req : MotionPlanRequest)
    (ext : ExternalOutcomes) (pc : PlannerConfigurationSettings)
    (fa : StateSpaceFactory) (e : MoveItErrorCode)
    (hg : req.group_name ≠ "")
    (hres : resolvePlannerConfig m.planner_configs req = some pc)
    (hsel : selectStateSpaceFactory m.state_space_factories pc.config pc.group req =
      .ok (some fa))
    (hfail : ext.pathConstraintsError = some e ∨
      (ext.pathConstraintsError = none ∧ ext.goalConstraintsError = some e)) :
    getPlanningContextTop m alloc cache nextId true req ext =
      .ok ⟨none, e, (getPlanningContextForConfig m cache nextId pc fa.type).2.1,
           (getPlanningContextForConfig m cache nextId pc fa.type).2.2⟩ ∧
    (fa.type ≠ constrainedParameterizationType →
     allHeld (cacheEntry cache (pc.name, fa.type)) = true →
     nextId ∈ (cacheEntry (getPlanningContextForConfig m cache nextId pc fa.type).2.1
        (pc.name, fa.type)).map (fun c => c.ctx.id)) := by
  constructor
  · rcases hfail with hp | ⟨hp, hgl⟩
    · simp [getPlanningContextTop, hg, hres, hsel, hp]
    · simp [getPlanningContextTop, hg, hres, hsel, hp, hgl]
  · intro hft hheld
    rw [getPlanningContextForConfig_miss m cache nextId pc fa.type
      (allHeld_firstUnique_none _ hheld) hft]
    rw [cacheEntry_mapSet_self]
    have hid : (applyManagerSettings m pc (newPlanningContext nextId pc)).id =
        nextId := by
      rw [applyManagerSettings_id]; rfl
    simp [hid]

/-- C10 witness: a failing path-constraint validation (error code 99) on a fresh
acquisition returns null with code 99 while the cache keeps the just-built context
(id 0) under its key. -/
theorem constraintFailure_keeps_cache_witness :
    getPlanningContextTop mgrPlain emptyAllocator ⟨[]⟩ 0 true reqArmOnePos
      extPathFails =
      .ok ⟨none, .other 99,
           (getPlanningContextForConfig mgrPlain ⟨[]⟩ 0 cfgPlain "JointModel").2.1,
           (getPlanningContextForConfig mgrPlain ⟨[]⟩ 0 cfgPlain "JointModel").2.2⟩ ∧
    0 ∈ (cacheEntry (getPlanningContextForConfig mgrPlain ⟨[]⟩ 0 cfgPlain
        "JointModel").2.1 ("cfg", "JointModel")).map (fun c => c.ctx.id) := by
  have h := constraintFailure_keeps_cache mgrPlain emptyAllocator ⟨[]⟩ 0 reqArmOnePos
    extPathFails cfgPlain jointFactory (.other 99) (by decide) rfl rfl (Or.inl rfl)
  exact ⟨h.1, h.2 (by decide) rfl⟩

end OmplModel
